import Mathlib

/-!
# Loop feature extractor: shallow embedding and verification

This file embeds the loop-feature-extraction pass of
`src/LoopFeatureExtractor.cpp` (an LLVM module pass that walks every
function's loop forest and appends one CSV row of structural features per
loop) and proves or refutes the specification's claims about it.

Modelling conventions:
* LLVM IR objects are modelled at the abstraction level the pass consumes:
  an instruction is an opcode class plus an operand count and the parent
  blocks of its instruction users; a basic block is an id (standing for the
  `BasicBlock *` pointer identity used by the `std::set`s), a name, a list
  of non-terminator instructions, a terminator, and predecessor/successor
  block-id lists; a loop is a header, its member-block list
  (`Loop::blocks()`), its depth (`getLoopDepth()`), and its direct
  sub-loops (`getSubLoops()`).
* `ScalarEvolution::getBackedgeTakenCount` never returns null (it returns
  `SCEVCouldNotCompute` when it cannot compute a bound), so the
  null-check `else` branch at line 173 of the source is dead; the
  `dyn_cast<SCEVConstant>` test is modelled by an `Option Nat` oracle.
  `getZExtValue()` produces the count as a `uint64_t`, the `+ 1` is
  unsigned 64-bit arithmetic, and the result is stored in an `int64_t`;
  this is modelled exactly (`% 2 ^ 64` followed by the two's-complement
  reinterpretation `toInt64`).
* The process-wide `unsigned CodeIDCounter` is modelled as a `Nat` reduced
  `% 2 ^ 32` at the one place it is incremented (`CodeIDCounter++`).
* Counters such as `num_instr` are C `int`s in the source; they count
  objects materialised in the analyzed module, so they are modelled as
  `Nat` (no input a compiler can hold in memory makes them wrap).
* File contents (the CSV dataset and the counter side-store) are modelled
  as values; the I/O wrappers around them are straight-line code.
-/

/-- Opcode class of an instruction, as discriminated by the pass's
`isa<...>` / `getOpcode()` tests (`PHINode`, `CallBase`, `LoadInst`,
`StoreInst`, `BranchInst` with `isConditional()`, the four float
arithmetic opcodes, `ReturnInst`, `UnreachableInst`, everything else). -/
inductive Opcode where
  | phi
  | call
  | load
  | store
  | br (isConditional : Bool)
  | fadd
  | fsub
  | fmul
  | fdiv
  | ret
  | unreachable
  | other
deriving DecidableEq, Repr

/-- `isa<BranchInst>(I)`. -/
def Opcode.isBranch : Opcode → Bool
  | .br _ => true
  | _ => false

/-- `isa<BranchInst>(I) && cast<BranchInst>(&I)->isConditional()`. -/
def Opcode.isCondBranch : Opcode → Bool
  | .br c => c
  | _ => false

/-- The float-arithmetic opcode test at lines 137-140 of the source. -/
def Opcode.isFloatArith : Opcode → Bool
  | .fadd => true
  | .fsub => true
  | .fmul => true
  | .fdiv => true
  | _ => false

/-- `isa<ReturnInst>(TI)`. -/
def Opcode.isRet : Opcode → Bool
  | .ret => true
  | _ => false

/-- `isa<UnreachableInst>(TI)`. -/
def Opcode.isUnreachableTerm : Opcode → Bool
  | .unreachable => true
  | _ => false

/-- Whether the opcode class is a block terminator (branch, return or
unreachable); the LLVM verifier only allows these in terminator
position. -/
def Opcode.isTerminator : Opcode → Bool
  | .br _ => true
  | .ret => true
  | .unreachable => true
  | _ => false

/-- An instruction as the pass observes it: its opcode class, its operand
count (`getNumOperands()`), and, for each user of its result that is
itself an instruction (the `dyn_cast<Instruction>(U)` filter at line 143),
the id of that user's parent basic block (`UserI->getParent()`). -/
structure Instruction where
  op : Opcode
  numOperands : Nat
  userParentBlocks : List Nat
deriving DecidableEq, Repr

/-- A basic block: `id` stands for the `BasicBlock *` pointer identity used
by the `std::set<BasicBlock *>`s, `body` are the non-terminator
instructions in order, `term` is the terminator (`getTerminator()`, always
present in well-formed IR, so the null check at line 149 is always taken),
and `preds`/`succs` are the function-wide predecessor and successor block
ids (`predecessors(BB)` / `successors(BB)`). -/
structure BasicBlock where
  id : Nat
  name : String
  body : List Instruction
  term : Instruction
  preds : List Nat
  succs : List Nat
deriving DecidableEq, Repr

/-- The instruction sequence `for (Instruction &I : *BB)` iterates: every
instruction of the block, terminator included. -/
def BasicBlock.instrs (b : BasicBlock) : List Instruction :=
  b.body ++ [b.term]

/-- The LLVM verifier invariant the embedding needs: no instruction in the
body (i.e. before the terminator) is of a terminator opcode class. -/
def BasicBlock.wfTerm (b : BasicBlock) : Bool :=
  b.body.all fun i => !i.op.isTerminator

/-- A natural loop as `LoopInfo` presents it: header block, member blocks
(`Loop::blocks()`, which includes the blocks of nested sub-loops), nesting
depth (`getLoopDepth()`, 1 = top level) and direct sub-loops
(`getSubLoops()`). -/
inductive Loop where
  | mk (header : BasicBlock) (blocks : List BasicBlock) (depth : Nat)
      (subLoops : List Loop)

def Loop.header : Loop → BasicBlock
  | .mk h _ _ _ => h

def Loop.blocks : Loop → List BasicBlock
  | .mk _ bs _ _ => bs

def Loop.depth : Loop → Nat
  | .mk _ _ d _ => d

def Loop.subLoops : Loop → List Loop
  | .mk _ _ _ subs => subs

/-- The member-block id set used for `L->contains(UserI->getParent())`. -/
def Loop.blockIds (L : Loop) : List Nat :=
  L.blocks.map fun b => b.id

/-- Structural well-formedness of a loop nest, as `LoopInfo` guarantees it:
the member-block list has no duplicates, and every direct sub-loop's
member blocks are members of the parent and are themselves well-formed. -/
inductive Loop.WF : Loop → Prop
  | mk (h : BasicBlock) (bs : List BasicBlock) (d : Nat) (subs : List Loop) :
      bs.Nodup →
      (∀ s ∈ subs, s.blocks ⊆ bs) →
      (∀ s ∈ subs, Loop.WF s) →
      Loop.WF (.mk h bs d subs)

/-- One emitted dataset row, with one field per CSV column in the order the
source writes them (lines 178-199). -/
structure FeatureRecord where
  codeID : Nat
  funcName : String
  header : String
  num_instr : Nat
  num_phis : Nat
  num_calls : Nat
  num_preds : Nat
  num_succ : Nat
  ends_with_unreachable : Bool
  ends_with_return : Bool
  ends_with_cond_branch : Bool
  ends_with_branch : Bool
  num_float_ops : Nat
  nums_branchs : Nat
  num_operands : Nat
  num_memory_ops : Nat
  num_unique_predicates : Nat
  trip_count : Int
  num_uses : Nat
  num_blocks_in_lp : Nat
  loop_depth : Nat
deriving DecidableEq, Repr

/-- The mutable locals of `analyzeLoop` (lines 113-120): the counters, the
four flags, and the two `std::set<BasicBlock *>`s (kept as id lists; only
membership and size are ever consulted). -/
structure AccState where
  num_instr : Nat
  num_phis : Nat
  num_calls : Nat
  num_float_ops : Nat
  nums_branchs : Nat
  num_operands : Nat
  num_memory_ops : Nat
  num_uses : Nat
  num_blocks_in_lp : Nat
  ends_with_unreachable : Bool
  ends_with_return : Bool
  ends_with_cond_branch : Bool
  ends_with_branch : Bool
  unique_preds : List Nat
  unique_succs : List Nat
deriving DecidableEq, Repr

/-- All-zero / all-false / empty initial state (lines 113-120). -/
def AccState.init : AccState :=
  { num_instr := 0, num_phis := 0, num_calls := 0, num_float_ops := 0
    nums_branchs := 0, num_operands := 0, num_memory_ops := 0, num_uses := 0
    num_blocks_in_lp := 0, ends_with_unreachable := false
    ends_with_return := false, ends_with_cond_branch := false
    ends_with_branch := false, unique_preds := [], unique_succs := [] }

/-- `std::set::insert`: a no-op when the element is already present. -/
def insertSet (s : List Nat) (x : Nat) : List Nat :=
  if x ∈ s then s else x :: s

/-- The body of the per-instruction loop (lines 125-147): bump the counters
the instruction's opcode class selects, accumulate its operand count, set
the branch flags, and count its users whose parent block lies in the loop
(`L->contains(UserI->getParent())`). -/
def instrStep (loopIds : List Nat) (s : AccState) (i : Instruction) : AccState :=
  { s with
    num_instr := s.num_instr + 1
    num_operands := s.num_operands + i.numOperands
    num_phis := s.num_phis + (if i.op = .phi then 1 else 0)
    num_calls := s.num_calls + (if i.op = .call then 1 else 0)
    num_memory_ops :=
      s.num_memory_ops + (if i.op = .load ∨ i.op = .store then 1 else 0)
    nums_branchs := s.nums_branchs + (if i.op.isBranch then 1 else 0)
    ends_with_cond_branch := s.ends_with_cond_branch || i.op.isCondBranch
    ends_with_branch := s.ends_with_branch || i.op.isBranch
    num_float_ops := s.num_float_ops + (if i.op.isFloatArith then 1 else 0)
    num_uses :=
      s.num_uses + (i.userParentBlocks.filter fun u => u ∈ loopIds).length }

/-- The body of the per-block loop (lines 122-160): bump the block count,
run the instruction loop, OR the terminator's return/unreachable class
into the flags, and insert the block's predecessors and successors into
the two sets. -/
def blockStep (loopIds : List Nat) (s : AccState) (b : BasicBlock) : AccState :=
  let s2 := b.instrs.foldl (instrStep loopIds)
    { s with num_blocks_in_lp := s.num_blocks_in_lp + 1 }
  { s2 with
    ends_with_unreachable := s2.ends_with_unreachable || b.term.op.isUnreachableTerm
    ends_with_return := s2.ends_with_return || b.term.op.isRet
    unique_preds := b.preds.foldl insertSet s2.unique_preds
    unique_succs := b.succs.foldl insertSet s2.unique_succs }

/-- Two's-complement reinterpretation of a `uint64_t` value as `int64_t`
(the store into `int64_t trip_count` at line 169). -/
def toInt64 (v : Nat) : Int :=
  if v < 2 ^ 63 then (v : Int) else (v : Int) - 2 ^ 64

/-- Lines 166-175: `trip_count` stays `0` unless the bound oracle produced
a compile-time-constant backedge-taken count `c`, in which case the stored
value is `getZExtValue() + 1` computed in `uint64_t` and stored in
`int64_t`. -/
def tripCountOf (tc : Option Nat) : Int :=
  match tc with
  | some c => toInt64 ((c + 1) % 2 ^ 64)
  | none => 0

/-- The record `analyzeLoop` computes and writes for one loop (lines
110-200), before recursing into sub-loops: the fold of `blockStep` over
the member blocks, the trip count from the bound oracle, and the
identifying columns. -/
def mkLoopRecord (oracle : Loop → Option Nat) (funcName : String)
    (codeID : Nat) (L : Loop) : FeatureRecord :=
  let s := L.blocks.foldl (blockStep L.blockIds) AccState.init
  { codeID := codeID
    funcName := funcName
    header := L.header.name
    num_instr := s.num_instr
    num_phis := s.num_phis
    num_calls := s.num_calls
    num_preds := s.unique_preds.length
    num_succ := s.unique_succs.length
    ends_with_unreachable := s.ends_with_unreachable
    ends_with_return := s.ends_with_return
    ends_with_cond_branch := s.ends_with_cond_branch
    ends_with_branch := s.ends_with_branch
    num_float_ops := s.num_float_ops
    nums_branchs := s.nums_branchs
    num_operands := s.num_operands
    num_memory_ops := s.num_memory_ops
    num_unique_predicates := s.unique_preds.length
    trip_count := tripCountOf (oracle L)
    num_uses := s.num_uses
    num_blocks_in_lp := s.num_blocks_in_lp
    loop_depth := L.depth }

mutual
/-- `analyzeLoop` (lines 110-208) as the list of records it writes, in
emission order: first the record for this loop, then, recursively, the
records of each direct sub-loop (lines 204-207). -/
def analyzeLoop (oracle : Loop → Option Nat) (funcName : String)
    (codeID : Nat) : Loop → List FeatureRecord
  | .mk h bs d subs =>
    mkLoopRecord oracle funcName codeID (.mk h bs d subs) ::
      analyzeLoopList oracle funcName codeID subs

/-- The `for (Loop *SubLoop : L->getSubLoops())` recursion, flattened. -/
def analyzeLoopList (oracle : Loop → Option Nat) (funcName : String)
    (codeID : Nat) : List Loop → List FeatureRecord
  | [] => []
  | L :: Ls =>
    analyzeLoop oracle funcName codeID L ++
      analyzeLoopList oracle funcName codeID Ls
end

mutual
/-- Pre-order enumeration of a loop nest: the loop itself, then the loops
of each sub-nest. -/
def loopsOf : Loop → List Loop
  | .mk h bs d subs => .mk h bs d subs :: loopsOfList subs

def loopsOfList : List Loop → List Loop
  | [] => []
  | L :: Ls => loopsOf L ++ loopsOfList Ls
end

/-- A function as the pass observes it (`llvm::Function`): name,
`isDeclaration()`, the top-level loops of its `LoopInfo` forest, and its
`ScalarEvolution` constant-backedge-count oracle. -/
structure IRFunction where
  name : String
  isDeclaration : Bool
  loops : List Loop
  oracle : Loop → Option Nat

/-- A compilation unit (`llvm::Module`): its functions, in order. -/
structure IRModule where
  functions : List IRFunction

/-- The records one function contributes inside `run` (lines 81-105): a
declaration is skipped; otherwise every top-level loop of the forest is
analyzed (an empty forest contributes nothing). -/
def funcRecords (codeID : Nat) (F : IRFunction) : List FeatureRecord :=
  if F.isDeclaration then []
  else F.loops.flatMap (analyzeLoop F.oracle F.name codeID)

/-- The records `run` (lines 77-108) emits for one compilation unit, given
the process's code id. -/
def runUnit (M : IRModule) (codeID : Nat) : List FeatureRecord :=
  M.functions.flatMap (funcRecords codeID)

/-! ## Identifier persistence (CodeIDCounter / CurrentCodeID) -/

/-- `2 ^ 32`: modulus of the `unsigned CodeIDCounter`. -/
def U32 : Nat := 4294967296

/-- The per-process identifier state: the static `unsigned CodeIDCounter`
and the function-local `static unsigned CurrentCodeID` of `run` (`none`
while its one-time initializer has not run yet). -/
structure IDState where
  codeIDCounter : Nat
  currentCodeID : Option Nat
deriving DecidableEq, Repr

/-- `initializeCodeIDCounter` (lines 44-54): read the stored counter, or 0
when `code_id.txt` is absent; `CurrentCodeID` is still uninitialized. -/
def initializeCodeIDCounter (stored : Option Nat) : IDState :=
  { codeIDCounter := stored.getD 0, currentCodeID := none }

/-- One call of `run` as far as the identifier is concerned (line 78):
`static unsigned CurrentCodeID = CodeIDCounter++;` — on the first call the
static initializer captures the counter's old value and bumps the counter
(unsigned, so modulo `2 ^ 32`); on every later call the initializer is
skipped and the cached value is returned. -/
def runGetCodeID (s : IDState) : IDState × Nat :=
  match s.currentCodeID with
  | some cid => (s, cid)
  | none =>
    ({ codeIDCounter := (s.codeIDCounter + 1) % U32
       currentCodeID := some s.codeIDCounter }, s.codeIDCounter)

/-- `n` successive calls of `run` in one process: final state plus the code
id each call used. -/
def runSteps : Nat → IDState → IDState × List Nat
  | 0, s => (s, [])
  | n + 1, s =>
    let p := runGetCodeID s
    let q := runSteps n p.1
    (q.1, p.2 :: q.2)

/-- `saveCodeIDCounter` (lines 56-65): the value written back to
`code_id.txt` at teardown. -/
def saveCodeIDCounter (s : IDState) : Nat :=
  s.codeIDCounter

/-! ## Dataset writer (loop_features.csv) -/

/-- Join a list of CSV fields with commas. -/
def csvJoin : List String → String
  | [] => ""
  | [x] => x
  | x :: y :: t => x ++ "," ++ csvJoin (y :: t)

/-- The 21 column names of the fixed header, in the order of lines 33-36 of
the source. -/
def headerColumns : List String :=
  ["CodeID", "Function", "LoopHeader", "num_instr", "num_phis", "num_calls",
   "num_preds", "num_succ", "ends_with_unreachable", "ends_with_return",
   "ends_with_cond_branch", "ends_with_branch", "num_float_ops",
   "nums_branchs", "num_operands", "num_memory_ops",
   "num_unique_predicates", "trip_count", "num_uses", "num_blocks_in_lp",
   "loop_depth"]

/-- The header line exactly as the source writes it (the four chunks of
lines 33-36 concatenated, newline included). -/
def headerLine : String :=
  "CodeID,Function,LoopHeader,num_instr,num_phis,num_calls,num_preds,num_succ," ++
  "ends_with_unreachable,ends_with_return,ends_with_cond_branch," ++
  "ends_with_branch,num_float_ops,nums_branchs,num_operands," ++
  "num_memory_ops,num_unique_predicates,trip_count,num_uses,num_blocks_in_lp,loop_depth\n"

/-- `initializeOutFile` (lines 20-42) as its effect on the dataset file's
content: open in append mode (creating the file if absent), and append the
header exactly when the file is empty at open time. -/
def initializeOutFile (content : String) : String :=
  if content = "" then content ++ headerLine else content

/-- Boolean CSV serialization `(flag ? 1 : 0)`. -/
def boolToCSV (b : Bool) : String :=
  if b then "1" else "0"

/-- The CSV line the pass writes for one record: the `OutFile <<` chain of
lines 178-199, column by column. -/
def writeRecord (r : FeatureRecord) : String :=
  toString r.codeID ++ "," ++
  r.funcName ++ "," ++
  r.header ++ "," ++
  toString r.num_instr ++ "," ++
  toString r.num_phis ++ "," ++
  toString r.num_calls ++ "," ++
  toString r.num_preds ++ "," ++
  toString r.num_succ ++ "," ++
  boolToCSV r.ends_with_unreachable ++ "," ++
  boolToCSV r.ends_with_return ++ "," ++
  boolToCSV r.ends_with_cond_branch ++ "," ++
  boolToCSV r.ends_with_branch ++ "," ++
  toString r.num_float_ops ++ "," ++
  toString r.nums_branchs ++ "," ++
  toString r.num_operands ++ "," ++
  toString r.num_memory_ops ++ "," ++
  toString r.num_unique_predicates ++ "," ++
  toString r.trip_count ++ "," ++
  toString r.num_uses ++ "," ++
  toString r.num_blocks_in_lp ++ "," ++
  toString r.loop_depth ++ "\n"

/-- The fields of a record in the order the source serializes them, one
string per CSV column. -/
def recordCSVFields (r : FeatureRecord) : List String :=
  [toString r.codeID, r.funcName, r.header, toString r.num_instr,
   toString r.num_phis, toString r.num_calls, toString r.num_preds,
   toString r.num_succ, boolToCSV r.ends_with_unreachable,
   boolToCSV r.ends_with_return, boolToCSV r.ends_with_cond_branch,
   boolToCSV r.ends_with_branch, toString r.num_float_ops,
   toString r.nums_branchs, toString r.num_operands,
   toString r.num_memory_ops, toString r.num_unique_predicates,
   toString r.trip_count, toString r.num_uses, toString r.num_blocks_in_lp,
   toString r.loop_depth]

/-- Serialization in the column order claim C3 asserts (run id, function
name, loop header name, then the metrics in the order the spec's section
4.2 lists them). This follows the claim's words, not the source, and
exists to be compared against `writeRecord`. -/
def writeRecordSpecOrder (r : FeatureRecord) : String :=
  csvJoin
    [toString r.codeID, r.funcName, r.header, toString r.num_instr,
     toString r.num_phis, toString r.num_calls, toString r.num_memory_ops,
     toString r.nums_branchs, boolToCSV r.ends_with_branch,
     boolToCSV r.ends_with_cond_branch, boolToCSV r.ends_with_return,
     boolToCSV r.ends_with_unreachable, toString r.num_float_ops,
     toString r.num_operands, toString r.num_preds, toString r.num_succ,
     toString r.num_uses, toString r.trip_count,
     toString r.num_blocks_in_lp, toString r.loop_depth] ++ "\n"

/-! ## Concrete IR samples used by witnesses and counterexamples -/

/-- A load whose single result user sits in block 0. -/
def sampleLoad : Instruction :=
  { op := .load, numOperands := 1, userParentBlocks := [0] }

/-- A store (no result, hence no users). -/
def sampleStore : Instruction :=
  { op := .store, numOperands := 2, userParentBlocks := [] }

/-- A conditional branch. -/
def sampleCondBr : Instruction :=
  { op := .br true, numOperands := 3, userParentBlocks := [] }

/-- A single-block loop body: a load and a store, then a conditional
branch back to the header; one predecessor outside the loop. -/
def sampleBB : BasicBlock :=
  { id := 0, name := "loop.header", body := [sampleLoad, sampleStore]
    term := sampleCondBr, preds := [1, 0], succs := [0, 2] }

/-- A one-block, depth-1 loop with no sub-loops. -/
def sampleLoop : Loop := .mk sampleBB [sampleBB] 1 []

/-- Header block of a nested inner loop. -/
def innerBB : BasicBlock :=
  { id := 2, name := "inner.header", body := []
    term := { op := .br true, numOperands := 3, userParentBlocks := [] }
    preds := [0, 2], succs := [2, 0] }

/-- A one-block inner loop at depth 2. -/
def innerLoop : Loop := .mk innerBB [innerBB] 2 []

/-- A two-block outer loop whose member blocks include the inner loop's. -/
def outerLoop : Loop := .mk sampleBB [sampleBB, innerBB] 1 [innerLoop]

/-- A bound oracle reporting the constant backedge-taken count 9. -/
def nineOracle : Loop → Option Nat := fun _ => some 9

/-- A bound oracle that cannot prove any constant bound. -/
def noneOracle : Loop → Option Nat := fun _ => none

/-- A bound oracle reporting the largest `uint64_t` backedge-taken count
whose successor does not fit in a signed 64-bit integer. -/
def hugeOracle : Loop → Option Nat := fun _ => some (2 ^ 63 - 1)

/-- A function with a body and one top-level loop. -/
def sampleFunc : IRFunction :=
  { name := "f", isDeclaration := false, loops := [sampleLoop]
    oracle := nineOracle }

/-- A declaration (no body). -/
def declFunc : IRFunction :=
  { name := "g", isDeclaration := true, loops := [sampleLoop]
    oracle := nineOracle }

/-- A function with a body but an empty loop forest. -/
def looplessFunc : IRFunction :=
  { name := "h", isDeclaration := false, loops := [], oracle := nineOracle }

/-- A compilation unit with one loop-bearing function. -/
def sampleModule : IRModule := { functions := [sampleFunc] }

/-- A record with pairwise-distinct column values, used to separate the two
serialization orders. -/
def sampleRec : FeatureRecord :=
  { codeID := 1, funcName := "f", header := "h", num_instr := 30
    num_phis := 31, num_calls := 32, num_preds := 33, num_succ := 34
    ends_with_unreachable := false, ends_with_return := false
    ends_with_cond_branch := true, ends_with_branch := true
    num_float_ops := 35, nums_branchs := 36, num_operands := 37
    num_memory_ops := 38, num_unique_predicates := 33, trip_count := 39
    num_uses := 40, num_blocks_in_lp := 41, loop_depth := 42 }

/-! ## Fold characterization lemmas -/

theorem instrFold_unique_preds (ids : List Nat) (is : List Instruction)
    (s : AccState) :
    (is.foldl (instrStep ids) s).unique_preds = s.unique_preds := by
  induction is generalizing s with
  | nil => rfl
  | cons i is ih =>
    rw [List.foldl_cons, ih]
    rfl

theorem instrFold_unique_succs (ids : List Nat) (is : List Instruction)
    (s : AccState) :
    (is.foldl (instrStep ids) s).unique_succs = s.unique_succs := by
  induction is generalizing s with
  | nil => rfl
  | cons i is ih =>
    rw [List.foldl_cons, ih]
    rfl

theorem instrFold_num_blocks (ids : List Nat) (is : List Instruction)
    (s : AccState) :
    (is.foldl (instrStep ids) s).num_blocks_in_lp = s.num_blocks_in_lp := by
  induction is generalizing s with
  | nil => rfl
  | cons i is ih =>
    rw [List.foldl_cons, ih]
    rfl

theorem instrFold_return (ids : List Nat) (is : List Instruction)
    (s : AccState) :
    (is.foldl (instrStep ids) s).ends_with_return = s.ends_with_return := by
  induction is generalizing s with
  | nil => rfl
  | cons i is ih =>
    rw [List.foldl_cons, ih]
    rfl

theorem instrFold_unreachable (ids : List Nat) (is : List Instruction)
    (s : AccState) :
    (is.foldl (instrStep ids) s).ends_with_unreachable
      = s.ends_with_unreachable := by
  induction is generalizing s with
  | nil => rfl
  | cons i is ih =>
    rw [List.foldl_cons, ih]
    rfl

theorem instrFold_branch (ids : List Nat) (is : List Instruction)
    (s : AccState) :
    (is.foldl (instrStep ids) s).ends_with_branch
      = (s.ends_with_branch || is.any fun i => i.op.isBranch) := by
  induction is generalizing s with
  | nil => simp
  | cons i is ih =>
    rw [List.foldl_cons, ih]
    simp [instrStep, Bool.or_assoc]

theorem instrFold_cond_branch (ids : List Nat) (is : List Instruction)
    (s : AccState) :
    (is.foldl (instrStep ids) s).ends_with_cond_branch
      = (s.ends_with_cond_branch || is.any fun i => i.op.isCondBranch) := by
  induction is generalizing s with
  | nil => simp
  | cons i is ih =>
    rw [List.foldl_cons, ih]
    simp [instrStep, Bool.or_assoc]

theorem instrFold_branch_count (ids : List Nat) (is : List Instruction)
    (s : AccState) :
    (is.foldl (instrStep ids) s).nums_branchs
      = s.nums_branchs + is.countP fun i => i.op.isBranch := by
  induction is generalizing s with
  | nil => simp
  | cons i is ih =>
    rw [List.foldl_cons, ih]
    cases hi : i.op.isBranch <;> simp [instrStep, List.countP_cons, hi]
    all_goals omega

theorem insertSet_toFinset (s : List Nat) (x : Nat) :
    (insertSet s x).toFinset = insert x s.toFinset := by
  simp only [insertSet]
  split
  · exact (Finset.insert_eq_self.mpr (List.mem_toFinset.mpr ‹x ∈ s›)).symm
  · simp

theorem insertSet_nodup (s : List Nat) (x : Nat) (h : s.Nodup) :
    (insertSet s x).Nodup := by
  simp only [insertSet]
  split
  · exact h
  · exact List.nodup_cons.mpr ⟨‹x ∉ s›, h⟩

theorem foldl_insertSet_toFinset (xs s : List Nat) :
    (xs.foldl insertSet s).toFinset = s.toFinset ∪ xs.toFinset := by
  induction xs generalizing s with
  | nil => simp
  | cons x xs ih =>
    rw [List.foldl_cons, ih, insertSet_toFinset, List.toFinset_cons,
      Finset.insert_union, Finset.union_insert]

theorem foldl_insertSet_nodup (xs s : List Nat) (h : s.Nodup) :
    (xs.foldl insertSet s).Nodup := by
  induction xs generalizing s with
  | nil => exact h
  | cons x xs ih => rw [List.foldl_cons]; exact ih _ (insertSet_nodup _ _ h)

theorem blockStep_return (ids : List Nat) (s : AccState) (b : BasicBlock) :
    (blockStep ids s b).ends_with_return
      = (s.ends_with_return || b.term.op.isRet) := by
  simp [blockStep, instrFold_return]

theorem blockStep_unreachable (ids : List Nat) (s : AccState) (b : BasicBlock) :
    (blockStep ids s b).ends_with_unreachable
      = (s.ends_with_unreachable || b.term.op.isUnreachableTerm) := by
  simp [blockStep, instrFold_unreachable]

theorem blockStep_branch (ids : List Nat) (s : AccState) (b : BasicBlock) :
    (blockStep ids s b).ends_with_branch
      = (s.ends_with_branch || b.instrs.any fun i => i.op.isBranch) := by
  simp [blockStep, instrFold_branch]

theorem blockStep_cond_branch (ids : List Nat) (s : AccState) (b : BasicBlock) :
    (blockStep ids s b).ends_with_cond_branch
      = (s.ends_with_cond_branch || b.instrs.any fun i => i.op.isCondBranch) := by
  simp [blockStep, instrFold_cond_branch]

theorem blockStep_branch_count (ids : List Nat) (s : AccState) (b : BasicBlock) :
    (blockStep ids s b).nums_branchs
      = s.nums_branchs + b.instrs.countP fun i => i.op.isBranch := by
  simp [blockStep, instrFold_branch_count]

theorem blockStep_blocks (ids : List Nat) (s : AccState) (b : BasicBlock) :
    (blockStep ids s b).num_blocks_in_lp = s.num_blocks_in_lp + 1 := by
  simp [blockStep, instrFold_num_blocks]

theorem blockStep_preds (ids : List Nat) (s : AccState) (b : BasicBlock) :
    (blockStep ids s b).unique_preds
      = b.preds.foldl insertSet s.unique_preds := by
  simp [blockStep, instrFold_unique_preds]

theorem blockStep_succs (ids : List Nat) (s : AccState) (b : BasicBlock) :
    (blockStep ids s b).unique_succs
      = b.succs.foldl insertSet s.unique_succs := by
  simp [blockStep, instrFold_unique_succs]

theorem blockFold_return (ids : List Nat) (bs : List BasicBlock)
    (s : AccState) :
    (bs.foldl (blockStep ids) s).ends_with_return
      = (s.ends_with_return || bs.any fun b => b.term.op.isRet) := by
  induction bs generalizing s with
  | nil => simp
  | cons b bs ih =>
    rw [List.foldl_cons, ih, blockStep_return]
    simp [Bool.or_assoc]

theorem blockFold_unreachable (ids : List Nat) (bs : List BasicBlock)
    (s : AccState) :
    (bs.foldl (blockStep ids) s).ends_with_unreachable
      = (s.ends_with_unreachable || bs.any fun b => b.term.op.isUnreachableTerm) := by
  induction bs generalizing s with
  | nil => simp
  | cons b bs ih =>
    rw [List.foldl_cons, ih, blockStep_unreachable]
    simp [Bool.or_assoc]

theorem blockFold_branch (ids : List Nat) (bs : List BasicBlock)
    (s : AccState) :
    (bs.foldl (blockStep ids) s).ends_with_branch
      = (s.ends_with_branch || bs.any fun b => b.instrs.any fun i => i.op.isBranch) := by
  induction bs generalizing s with
  | nil => simp
  | cons b bs ih =>
    rw [List.foldl_cons, ih, blockStep_branch]
    simp [Bool.or_assoc]

theorem blockFold_cond_branch (ids : List Nat) (bs : List BasicBlock)
    (s : AccState) :
    (bs.foldl (blockStep ids) s).ends_with_cond_branch
      = (s.ends_with_cond_branch
          || bs.any fun b => b.instrs.any fun i => i.op.isCondBranch) := by
  induction bs generalizing s with
  | nil => simp
  | cons b bs ih =>
    rw [List.foldl_cons, ih, blockStep_cond_branch]
    simp [Bool.or_assoc]

theorem blockFold_branch_count (ids : List Nat) (bs : List BasicBlock)
    (s : AccState) :
    (bs.foldl (blockStep ids) s).nums_branchs
      = s.nums_branchs
        + (bs.flatMap fun b => b.instrs).countP fun i => i.op.isBranch := by
  induction bs generalizing s with
  | nil => simp
  | cons b bs ih =>
    rw [List.foldl_cons, ih, blockStep_branch_count, List.flatMap_cons,
      List.countP_append]
    omega

theorem blockFold_blocks (ids : List Nat) (bs : List BasicBlock)
    (s : AccState) :
    (bs.foldl (blockStep ids) s).num_blocks_in_lp
      = s.num_blocks_in_lp + bs.length := by
  induction bs generalizing s with
  | nil => simp
  | cons b bs ih =>
    rw [List.foldl_cons, ih, blockStep_blocks, List.length_cons]
    omega

theorem blockFold_preds_toFinset (ids : List Nat) (bs : List BasicBlock)
    (s : AccState) :
    (bs.foldl (blockStep ids) s).unique_preds.toFinset
      = s.unique_preds.toFinset ∪ (bs.flatMap fun b => b.preds).toFinset := by
  induction bs generalizing s with
  | nil => simp
  | cons b bs ih =>
    rw [List.foldl_cons, ih, blockStep_preds, foldl_insertSet_toFinset,
      List.flatMap_cons, List.toFinset_append, Finset.union_assoc]

theorem blockFold_succs_toFinset (ids : List Nat) (bs : List BasicBlock)
    (s : AccState) :
    (bs.foldl (blockStep ids) s).unique_succs.toFinset
      = s.unique_succs.toFinset ∪ (bs.flatMap fun b => b.succs).toFinset := by
  induction bs generalizing s with
  | nil => simp
  | cons b bs ih =>
    rw [List.foldl_cons, ih, blockStep_succs, foldl_insertSet_toFinset,
      List.flatMap_cons, List.toFinset_append, Finset.union_assoc]

theorem blockFold_preds_nodup (ids : List Nat) (bs : List BasicBlock)
    (s : AccState) (h : s.unique_preds.Nodup) :
    (bs.foldl (blockStep ids) s).unique_preds.Nodup := by
  induction bs generalizing s with
  | nil => exact h
  | cons b bs ih =>
    rw [List.foldl_cons]
    exact ih _ (by rw [blockStep_preds]; exact foldl_insertSet_nodup _ _ h)

theorem blockFold_succs_nodup (ids : List Nat) (bs : List BasicBlock)
    (s : AccState) (h : s.unique_succs.Nodup) :
    (bs.foldl (blockStep ids) s).unique_succs.Nodup := by
  induction bs generalizing s with
  | nil => exact h
  | cons b bs ih =>
    rw [List.foldl_cons]
    exact ih _ (by rw [blockStep_succs]; exact foldl_insertSet_nodup _ _ h)

/-! ## Record-level lemmas -/

theorem isRet_iff (o : Opcode) : o.isRet = true ↔ o = .ret := by
  cases o <;> simp [Opcode.isRet]

theorem isUnreachableTerm_iff (o : Opcode) :
    o.isUnreachableTerm = true ↔ o = .unreachable := by
  cases o <;> simp [Opcode.isUnreachableTerm]

theorem isCondBranch_isBranch {o : Opcode} (h : o.isCondBranch = true) :
    o.isBranch = true := by
  cases o <;> simp_all [Opcode.isCondBranch, Opcode.isBranch]

theorem isBranch_isTerminator {o : Opcode} (h : o.isBranch = true) :
    o.isTerminator = true := by
  cases o <;> simp_all [Opcode.isBranch, Opcode.isTerminator]

theorem mkLoopRecord_codeID (o : Loop → Option Nat) (fn : String) (cid : Nat)
    (L : Loop) : (mkLoopRecord o fn cid L).codeID = cid := rfl

theorem mkLoopRecord_trip_count (o : Loop → Option Nat) (fn : String)
    (cid : Nat) (L : Loop) :
    (mkLoopRecord o fn cid L).trip_count = tripCountOf (o L) := rfl

theorem mkLoopRecord_num_blocks (o : Loop → Option Nat) (fn : String)
    (cid : Nat) (L : Loop) :
    (mkLoopRecord o fn cid L).num_blocks_in_lp = L.blocks.length := by
  simp [mkLoopRecord, blockFold_blocks, AccState.init]

theorem mkLoopRecord_return (o : Loop → Option Nat) (fn : String) (cid : Nat)
    (L : Loop) :
    (mkLoopRecord o fn cid L).ends_with_return
      = L.blocks.any fun b => b.term.op.isRet := by
  simp [mkLoopRecord, blockFold_return, AccState.init]

theorem mkLoopRecord_unreachable (o : Loop → Option Nat) (fn : String)
    (cid : Nat) (L : Loop) :
    (mkLoopRecord o fn cid L).ends_with_unreachable
      = L.blocks.any fun b => b.term.op.isUnreachableTerm := by
  simp [mkLoopRecord, blockFold_unreachable, AccState.init]

theorem mkLoopRecord_branch (o : Loop → Option Nat) (fn : String) (cid : Nat)
    (L : Loop) :
    (mkLoopRecord o fn cid L).ends_with_branch
      = L.blocks.any fun b => b.instrs.any fun i => i.op.isBranch := by
  simp [mkLoopRecord, blockFold_branch, AccState.init]

theorem mkLoopRecord_cond_branch (o : Loop → Option Nat) (fn : String)
    (cid : Nat) (L : Loop) :
    (mkLoopRecord o fn cid L).ends_with_cond_branch
      = L.blocks.any fun b => b.instrs.any fun i => i.op.isCondBranch := by
  simp [mkLoopRecord, blockFold_cond_branch, AccState.init]

theorem mkLoopRecord_branch_count (o : Loop → Option Nat) (fn : String)
    (cid : Nat) (L : Loop) :
    (mkLoopRecord o fn cid L).nums_branchs
      = (L.blocks.flatMap fun b => b.instrs).countP fun i => i.op.isBranch := by
  simp [mkLoopRecord, blockFold_branch_count, AccState.init]

theorem mkLoopRecord_num_preds (o : Loop → Option Nat) (fn : String)
    (cid : Nat) (L : Loop) :
    (mkLoopRecord o fn cid L).num_preds
      = ((L.blocks.flatMap fun b => b.preds).dedup).length := by
  have hnd : (L.blocks.foldl (blockStep L.blockIds) AccState.init).unique_preds.Nodup :=
    blockFold_preds_nodup _ _ _ (by simp [AccState.init])
  have hfs : (L.blocks.foldl (blockStep L.blockIds) AccState.init).unique_preds.toFinset
      = (L.blocks.flatMap fun b => b.preds).toFinset := by
    rw [blockFold_preds_toFinset]
    simp [AccState.init]
  show (L.blocks.foldl (blockStep L.blockIds) AccState.init).unique_preds.length = _
  rw [← List.toFinset_card_of_nodup hnd, hfs, List.card_toFinset]

theorem mkLoopRecord_num_succ (o : Loop → Option Nat) (fn : String)
    (cid : Nat) (L : Loop) :
    (mkLoopRecord o fn cid L).num_succ
      = ((L.blocks.flatMap fun b => b.succs).dedup).length := by
  have hnd : (L.blocks.foldl (blockStep L.blockIds) AccState.init).unique_succs.Nodup :=
    blockFold_succs_nodup _ _ _ (by simp [AccState.init])
  have hfs : (L.blocks.foldl (blockStep L.blockIds) AccState.init).unique_succs.toFinset
      = (L.blocks.flatMap fun b => b.succs).toFinset := by
    rw [blockFold_succs_toFinset]
    simp [AccState.init]
  show (L.blocks.foldl (blockStep L.blockIds) AccState.init).unique_succs.length = _
  rw [← List.toFinset_card_of_nodup hnd, hfs, List.card_toFinset]

theorem mkLoopRecord_unique_predicates (o : Loop → Option Nat) (fn : String)
    (cid : Nat) (L : Loop) :
    (mkLoopRecord o fn cid L).num_unique_predicates
      = (mkLoopRecord o fn cid L).num_preds := rfl

/-! ## Loop-nest recursion lemmas -/

theorem analyzeLoop_eq_map (o : Loop → Option Nat) (fn : String) (cid : Nat)
    (L : Loop) :
    analyzeLoop o fn cid L = (loopsOf L).map (mkLoopRecord o fn cid) :=
  @Loop.rec
    (fun L => analyzeLoop o fn cid L = (loopsOf L).map (mkLoopRecord o fn cid))
    (fun Ls =>
      analyzeLoopList o fn cid Ls = (loopsOfList Ls).map (mkLoopRecord o fn cid))
    (fun h bs d subs ih => by
      show mkLoopRecord o fn cid (.mk h bs d subs) ::
            analyzeLoopList o fn cid subs
          = mkLoopRecord o fn cid (.mk h bs d subs) ::
              (loopsOfList subs).map (mkLoopRecord o fn cid)
      rw [ih])
    rfl
    (fun L Ls ih1 ih2 => by
      show analyzeLoop o fn cid L ++ analyzeLoopList o fn cid Ls
          = (loopsOf L ++ loopsOfList Ls).map (mkLoopRecord o fn cid)
      rw [List.map_append, ih1, ih2])
    L

theorem runUnit_codeID (M : IRModule) (cid : Nat) (r : FeatureRecord)
    (h : r ∈ runUnit M cid) : r.codeID = cid := by
  simp only [runUnit, List.mem_flatMap] at h
  obtain ⟨F, _, hr⟩ := h
  simp only [funcRecords] at hr
  split at hr
  · simp at hr
  · simp only [List.mem_flatMap] at hr
    obtain ⟨L, _, hrL⟩ := hr
    rw [analyzeLoop_eq_map] at hrL
    simp only [List.mem_map] at hrL
    obtain ⟨L2, _, rfl⟩ := hrL
    rfl

theorem Loop.WF.nodup_blocks {L : Loop} (h : L.WF) : L.blocks.Nodup := by
  cases h with
  | mk h bs d subs hnd hsub hwf => exact hnd

theorem Loop.WF.sub_subset {L : Loop} (h : L.WF) {s : Loop}
    (hs : s ∈ L.subLoops) : s.blocks ⊆ L.blocks := by
  cases h with
  | mk h bs d subs hnd hsub hwf => exact hsub s hs

theorem Loop.WF.sub_wf {L : Loop} (h : L.WF) {s : Loop}
    (hs : s ∈ L.subLoops) : s.WF := by
  cases h with
  | mk h bs d subs hnd hsub hwf => exact hwf s hs

/-! ## Identifier-state lemmas -/

theorem runSteps_cached (n c l : Nat) :
    runSteps n ⟨c, some l⟩ = (⟨c, some l⟩, List.replicate n l) := by
  induction n with
  | zero => rfl
  | succ n ih => simp [runSteps, runGetCodeID, ih, List.replicate_succ]

theorem runSteps_init (n l : Nat) :
    runSteps (n + 1) ⟨l, none⟩
      = (⟨(l + 1) % U32, some l⟩, l :: List.replicate n l) := by
  simp [runSteps, runGetCodeID, runSteps_cached]

/-! ## Dataset-writer lemmas -/

theorem initializeOutFile_ne_empty (c : String) (h : c ≠ "") :
    initializeOutFile c = c := by
  simp [initializeOutFile, h]

set_option maxRecDepth 4096 in
theorem headerLine_ne_empty : headerLine ≠ "" := by decide

theorem initializeOutFile_iterate (n : Nat) (c : String) (h : c ≠ "") :
    initializeOutFile^[n] c = c := by
  induction n with
  | zero => rfl
  | succ n ih => rw [Function.iterate_succ_apply, initializeOutFile_ne_empty c h, ih]

/-! ## Remaining helper lemmas -/

theorem innerLoop_wf : innerLoop.WF :=
  Loop.WF.mk innerBB [innerBB] 2 [] (by decide)
    (by intro s hs; cases hs) (by intro s hs; cases hs)

theorem outerLoop_wf : outerLoop.WF :=
  Loop.WF.mk sampleBB [sampleBB, innerBB] 1 [innerLoop]
    (by decide)
    (by
      intro s hs
      rw [List.mem_singleton] at hs
      subst hs
      decide)
    (by
      intro s hs
      rw [List.mem_singleton] at hs
      subst hs
      exact innerLoop_wf)

theorem body_no_branch (b : BasicBlock) (h : b.wfTerm = true) :
    (b.body.any fun i => i.op.isBranch) = false := by
  rw [List.any_eq_false]
  intro i hi hbr
  simp only [BasicBlock.wfTerm, List.all_eq_true, Bool.not_eq_true'] at h
  have hterm := h i hi
  rw [isBranch_isTerminator hbr] at hterm
  exact absurd hterm (by simp)

theorem instrs_any_branch (b : BasicBlock) (h : b.wfTerm = true) :
    (b.instrs.any fun i => i.op.isBranch) = b.term.op.isBranch := by
  simp only [BasicBlock.instrs, List.any_append, List.any_cons, List.any_nil,
    Bool.or_false, body_no_branch b h, Bool.false_or]

theorem funcRecords_eq_nil (cid : Nat) (F : IRFunction)
    (h : F.isDeclaration = true ∨ F.loops = []) : funcRecords cid F = [] := by
  rcases h with h | h
  · simp [funcRecords, h]
  · simp [funcRecords, h]

theorem flatMap_funcRecords_filter (cid : Nat) (Fs : List IRFunction) :
    Fs.flatMap (funcRecords cid)
      = (Fs.filter fun F => !F.isDeclaration && !F.loops.isEmpty).flatMap
          (funcRecords cid) := by
  induction Fs with
  | nil => rfl
  | cons G Gs ih =>
    rw [List.flatMap_cons, List.filter_cons]
    by_cases hG : (!G.isDeclaration && !G.loops.isEmpty) = true
    · rw [if_pos hG, List.flatMap_cons, ih]
    · rw [if_neg hG, ih, funcRecords_eq_nil cid G ?_, List.nil_append]
      by_cases hd : G.isDeclaration = true
      · exact Or.inl hd
      · right
        have hd2 : G.isDeclaration = false := by
          revert hd; cases G.isDeclaration <;> simp
        have he : G.loops.isEmpty = true := by
          revert hG; rw [hd2]; cases G.loops.isEmpty <;> simp
        exact List.isEmpty_iff.mp he

/-! ## Claim theorems -/

/-- C1 (amended): for every loop analyzed by `analyzeLoop`, if the bound
oracle yields a compile-time-constant backedge-taken count `c` whose
successor fits a signed 64-bit integer (`c + 1 < 2 ^ 63`), the `trip_count`
field of the emitted record equals `c + 1` and is non-negative; if the
oracle yields no constant, `trip_count` equals `0` and the record is still
computed. (The original claim, for all `c`, fails: for
`c ≥ 2 ^ 63 - 1` the `uint64_t` sum stored into `int64_t trip_count`
wraps, see the counterexample.) -/
theorem C1_trip_count (o : Loop → Option Nat) (fn : String) (cid : Nat)
    (L : Loop) :
    (∀ c, o L = some c → c + 1 < 2 ^ 63 →
      (mkLoopRecord o fn cid L).trip_count = (c : Int) + 1 ∧
        0 ≤ (mkLoopRecord o fn cid L).trip_count) ∧
    (o L = none → (mkLoopRecord o fn cid L).trip_count = 0) := by
  constructor
  · intro c hc hlt
    rw [mkLoopRecord_trip_count, hc]
    simp only [tripCountOf, toInt64]
    rw [Nat.mod_eq_of_lt (by omega), if_pos hlt]
    constructor
    · push_cast
      ring
    · positivity
  · intro hc
    rw [mkLoopRecord_trip_count, hc]
    rfl

/-- Witness for C1: backedge-taken count 9 yields trip count 10 (the
spec's own scenario), and an unprovable bound yields the 0 sentinel. -/
theorem C1_trip_count_witness :
    (nineOracle sampleLoop = some 9 ∧ 9 + 1 < 2 ^ 63 ∧
      (mkLoopRecord nineOracle "f" 1 sampleLoop).trip_count = (9 : Int) + 1 ∧
      0 ≤ (mkLoopRecord nineOracle "f" 1 sampleLoop).trip_count) ∧
    (noneOracle sampleLoop = none ∧
      (mkLoopRecord noneOracle "f" 1 sampleLoop).trip_count = 0) := by
  refine ⟨⟨rfl, by norm_num, ?_, ?_⟩, rfl, ?_⟩
  · exact ((C1_trip_count nineOracle "f" 1 sampleLoop).1 9 rfl (by norm_num)).1
  · exact ((C1_trip_count nineOracle "f" 1 sampleLoop).1 9 rfl (by norm_num)).2
  · exact (C1_trip_count noneOracle "f" 1 sampleLoop).2 rfl

/-- Counterexample to C1 as stated: when the oracle reports the constant
backedge-taken count `2 ^ 63 - 1` (a loop running `2 ^ 63` iterations, a
bound ScalarEvolution proves for e.g. `for (uint64_t i = 0; i < 1ull<<63;
++i)`), the stored `int64_t` value is negative, not `c + 1`. -/
theorem C1_counterexample :
    hugeOracle sampleLoop = some (2 ^ 63 - 1) ∧
    (mkLoopRecord hugeOracle "f" 0 sampleLoop).trip_count < 0 ∧
    (mkLoopRecord hugeOracle "f" 0 sampleLoop).trip_count
      ≠ ((2 ^ 63 - 1 : Nat) : Int) + 1 := by
  refine ⟨rfl, by decide, by decide⟩

/-- C2 (amended): the run identifier of every `run` call during one process
equals the counter value loaded at startup, the in-memory counter is
bumped exactly once (on the first call, never again however many units are
processed), every record emitted for a unit carries that same identifier,
and `saveCodeIDCounter` persists `(loaded + 1) % 2 ^ 32`. (The original
claim's "persists loaded value + 1" fails at `loaded = 2 ^ 32 - 1`, where
the `unsigned` counter wraps to 0, see the counterexample.) -/
theorem C2_run_identifier (stored : Option Nat) (n : Nat) (M : IRModule)
    (cid : Nat) (r : FeatureRecord)
    (hcid : cid ∈ (runSteps (n + 1) (initializeCodeIDCounter stored)).2)
    (hr : r ∈ runUnit M (stored.getD 0)) :
    cid = stored.getD 0 ∧
    saveCodeIDCounter (runSteps (n + 1) (initializeCodeIDCounter stored)).1
      = (stored.getD 0 + 1) % U32 ∧
    r.codeID = stored.getD 0 := by
  have hinit : initializeCodeIDCounter stored = ⟨stored.getD 0, none⟩ := rfl
  refine ⟨?_, ?_, runUnit_codeID M _ r hr⟩
  · rw [hinit, runSteps_init, List.mem_cons] at hcid
    rcases hcid with h | h
    · exact h
    · exact List.eq_of_mem_replicate h
  · rw [hinit, runSteps_init]
    rfl

/-- Witness for C2: a process that loaded 5 uses id 5 for both of two `run`
calls, saves 6, and the single record of the sample module carries id 5. -/
theorem C2_run_identifier_witness :
    5 ∈ (runSteps 2 (initializeCodeIDCounter (some 5))).2 ∧
    mkLoopRecord nineOracle "f" 5 sampleLoop
        ∈ runUnit sampleModule ((some 5).getD 0) ∧
    (5 = (some 5).getD 0 ∧
      saveCodeIDCounter (runSteps 2 (initializeCodeIDCounter (some 5))).1
        = ((some 5).getD 0 + 1) % U32 ∧
      (mkLoopRecord nineOracle "f" 5 sampleLoop).codeID = (some 5).getD 0) := by
  have h1 : 5 ∈ (runSteps 2 (initializeCodeIDCounter (some 5))).2 := by decide
  have h2 : mkLoopRecord nineOracle "f" 5 sampleLoop
      ∈ runUnit sampleModule ((some 5).getD 0) := List.mem_singleton.mpr rfl
  exact ⟨h1, h2, C2_run_identifier (some 5) 1 sampleModule 5 _ h1 h2⟩

/-- Counterexample to C2 as stated: a process that loads the counter value
`2 ^ 32 - 1` persists 0, not `loaded + 1`, because `CodeIDCounter` is a
32-bit `unsigned`. -/
theorem C2_counterexample :
    saveCodeIDCounter (runSteps 1 (initializeCodeIDCounter (some 4294967295))).1 = 0 ∧
    (0 : Nat) ≠ 4294967295 + 1 := by
  exact ⟨by decide, by decide⟩

/-- C3 (amended): `writeRecord` serializes each record as one
comma-separated line in the fixed column order of the CSV header: run id,
function name, loop header name, then the 18 metric columns `num_instr,
num_phis, num_calls, num_preds, num_succ, ends_with_unreachable,
ends_with_return, ends_with_cond_branch, ends_with_branch, num_float_ops,
nums_branchs, num_operands, num_memory_ops, num_unique_predicates,
trip_count, num_uses, num_blocks_in_lp, loop_depth` (21 columns in all),
with boolean columns serialized as 1/0. (The original claim's "20 metrics
in the order listed in spec section 4.2" fails: there are 18 metric
columns and the serialization order is the header's, see the
counterexample.) -/
theorem C3_write_record (r : FeatureRecord) :
    writeRecord r = csvJoin (recordCSVFields r) ++ "\n" ∧
    (recordCSVFields r).length = 21 ∧
    boolToCSV true = "1" ∧ boolToCSV false = "0" := by
  refine ⟨?_, rfl, rfl, rfl⟩
  simp [writeRecord, recordCSVFields, csvJoin, String.append_assoc]

set_option maxRecDepth 16384 in
/-- Counterexample to C3 as stated: on a record with pairwise-distinct
column values the line `writeRecord` produces differs from the line the
claim's column order would produce, and the line has 21 comma-separated
columns (20 commas), not the 23 that "20 metrics" after the three
identifying columns would give. -/
theorem C3_counterexample :
    writeRecord sampleRec ≠ writeRecordSpecOrder sampleRec ∧
    (writeRecord sampleRec).data.count ',' = 20 := by
  refine ⟨by decide, by decide⟩

/-- C4: for every loop, the emitted `ends_with_return` is true iff at least
one member block (any block, not only an exit block) has a return
terminator, and `ends_with_unreachable` is true iff at least one member
block has an unreachable terminator. -/
theorem C4_terminator_flags (o : Loop → Option Nat) (fn : String) (cid : Nat)
    (L : Loop) :
    ((mkLoopRecord o fn cid L).ends_with_return = true ↔
      ∃ b ∈ L.blocks, b.term.op = Opcode.ret) ∧
    ((mkLoopRecord o fn cid L).ends_with_unreachable = true ↔
      ∃ b ∈ L.blocks, b.term.op = Opcode.unreachable) := by
  rw [mkLoopRecord_return, mkLoopRecord_unreachable]
  constructor
  · rw [List.any_eq_true]
    exact exists_congr fun b => and_congr_right fun _ => isRet_iff _
  · rw [List.any_eq_true]
    exact exists_congr fun b => and_congr_right fun _ => isUnreachableTerm_iff _

/-- C5: `analyzeLoop` emits exactly one record per loop of the nest, in
pre-order (the loop's own record first, then its direct sub-loops'
records, recursively), each record computed from its own loop's
member-block set; and for a well-formed nest an outer loop's
`num_blocks_in_lp` is at least each direct sub-loop's. -/
theorem C5_recursion_structure (o : Loop → Option Nat) (fn : String)
    (cid : Nat) (L : Loop) (hwf : L.WF) :
    analyzeLoop o fn cid L = (loopsOf L).map (mkLoopRecord o fn cid) ∧
    analyzeLoop o fn cid L
      = mkLoopRecord o fn cid L :: analyzeLoopList o fn cid L.subLoops ∧
    ∀ s ∈ L.subLoops,
      (mkLoopRecord o fn cid s).num_blocks_in_lp
        ≤ (mkLoopRecord o fn cid L).num_blocks_in_lp := by
  refine ⟨analyzeLoop_eq_map o fn cid L, ?_, ?_⟩
  · cases L with
    | mk h bs d subs => rfl
  · intro s hs
    rw [mkLoopRecord_num_blocks, mkLoopRecord_num_blocks]
    exact ((hwf.sub_wf hs).nodup_blocks.subperm (hwf.sub_subset hs)).length_le

/-- Witness for C5 at a two-level nest: the outer loop's two blocks include
the inner loop's one block. -/
theorem C5_recursion_structure_witness :
    outerLoop.WF ∧
    (analyzeLoop nineOracle "f" 1 outerLoop
        = (loopsOf outerLoop).map (mkLoopRecord nineOracle "f" 1) ∧
      analyzeLoop nineOracle "f" 1 outerLoop
        = mkLoopRecord nineOracle "f" 1 outerLoop ::
            analyzeLoopList nineOracle "f" 1 outerLoop.subLoops ∧
      ∀ s ∈ outerLoop.subLoops,
        (mkLoopRecord nineOracle "f" 1 s).num_blocks_in_lp
          ≤ (mkLoopRecord nineOracle "f" 1 outerLoop).num_blocks_in_lp) :=
  ⟨outerLoop_wf, C5_recursion_structure nineOracle "f" 1 outerLoop outerLoop_wf⟩

set_option maxRecDepth 16384 in
/-- C6: opening the dataset writer appends the fixed 21-column header line
exactly when the file is empty at open time, never touches a non-empty
file, and is idempotent across any number of process invocations against
an already-populated file. -/
theorem C6_header_idempotent (content : String) (n : Nat) (h : content ≠ "") :
    initializeOutFile "" = headerLine ∧
    initializeOutFile content = content ∧
    initializeOutFile^[n + 1] "" = headerLine ∧
    initializeOutFile^[n] content = content ∧
    headerLine = csvJoin headerColumns ++ "\n" ∧
    headerColumns.length = 21 := by
  refine ⟨rfl, initializeOutFile_ne_empty content h, ?_,
    initializeOutFile_iterate n content h, by rfl, rfl⟩
  rw [Function.iterate_succ_apply]
  rw [show initializeOutFile "" = headerLine from rfl]
  exact initializeOutFile_iterate n headerLine headerLine_ne_empty

/-- Witness for C6 at the non-empty content "x" and two re-opens. -/
theorem C6_header_idempotent_witness :
    ("x" : String) ≠ "" ∧
    (initializeOutFile "" = headerLine ∧
      initializeOutFile "x" = "x" ∧
      initializeOutFile^[2] "" = headerLine ∧
      initializeOutFile^[1] "x" = "x" ∧
      headerLine = csvJoin headerColumns ++ "\n" ∧
      headerColumns.length = 21) :=
  ⟨by decide, C6_header_idempotent "x" 1 (by decide)⟩

/-- C7: for every loop, `num_preds` is the size of the deduplicated set of
predecessors of all member blocks (outside predecessors included),
`num_succ` the analogous successor-set size; both are non-negative and the
`num_preds` and `num_unique_predicates` fields always coincide. -/
theorem C7_pred_succ_sets (o : Loop → Option Nat) (fn : String) (cid : Nat)
    (L : Loop) :
    (mkLoopRecord o fn cid L).num_preds
      = ((L.blocks.flatMap fun b => b.preds).dedup).length ∧
    (mkLoopRecord o fn cid L).num_succ
      = ((L.blocks.flatMap fun b => b.succs).dedup).length ∧
    0 ≤ (mkLoopRecord o fn cid L).num_preds ∧
    0 ≤ (mkLoopRecord o fn cid L).num_succ ∧
    (mkLoopRecord o fn cid L).num_preds
      = (mkLoopRecord o fn cid L).num_unique_predicates :=
  ⟨mkLoopRecord_num_preds o fn cid L, mkLoopRecord_num_succ o fn cid L,
    Nat.zero_le _, Nat.zero_le _, rfl⟩

/-- C8: for every loop whose blocks keep terminators in terminator position
(the LLVM verifier invariant), `ends_with_branch` is true iff some member
block's terminator is a branch of any kind, and `ends_with_cond_branch` is
true iff some branch instruction contained in the loop is conditional. -/
theorem C8_branch_flags (o : Loop → Option Nat) (fn : String) (cid : Nat)
    (L : Loop) (hwf : ∀ b ∈ L.blocks, b.wfTerm = true) :
    ((mkLoopRecord o fn cid L).ends_with_branch = true ↔
      ∃ b ∈ L.blocks, b.term.op.isBranch = true) ∧
    ((mkLoopRecord o fn cid L).ends_with_cond_branch = true ↔
      ∃ b ∈ L.blocks, ∃ i ∈ b.instrs, i.op.isCondBranch = true) := by
  constructor
  · rw [mkLoopRecord_branch, List.any_eq_true]
    exact exists_congr fun b => and_congr_right fun hb => by
      rw [instrs_any_branch b (hwf b hb)]
  · rw [mkLoopRecord_cond_branch]
    simp only [List.any_eq_true]

/-- Witness for C8 at the sample loop, whose one block has a load and a
store in its body and a conditional branch as terminator. -/
theorem C8_branch_flags_witness :
    (∀ b ∈ sampleLoop.blocks, b.wfTerm = true) ∧
    (((mkLoopRecord nineOracle "f" 1 sampleLoop).ends_with_branch = true ↔
        ∃ b ∈ sampleLoop.blocks, b.term.op.isBranch = true) ∧
      ((mkLoopRecord nineOracle "f" 1 sampleLoop).ends_with_cond_branch = true ↔
        ∃ b ∈ sampleLoop.blocks, ∃ i ∈ b.instrs, i.op.isCondBranch = true)) :=
  ⟨by decide, C8_branch_flags nineOracle "f" 1 sampleLoop (by decide)⟩

/-- C9: `run` emits records only for functions with a body and a non-empty
loop forest; a declaration, or a function whose forest is empty,
contributes zero rows to the unit's output. -/
theorem C9_unit_skips (M : IRModule) (cid : Nat) (F : IRFunction)
    (h : F.isDeclaration = true ∨ F.loops = []) :
    runUnit M cid
      = (M.functions.filter fun F => !F.isDeclaration && !F.loops.isEmpty).flatMap
          (funcRecords cid) ∧
    funcRecords cid F = [] :=
  ⟨flatMap_funcRecords_filter cid M.functions, funcRecords_eq_nil cid F h⟩

/-- Witness for C9: a declaration (and, equally, the loopless function)
contributes no rows to the sample module's output. -/
theorem C9_unit_skips_witness :
    (declFunc.isDeclaration = true ∨ declFunc.loops = []) ∧
    (runUnit sampleModule 3
        = (sampleModule.functions.filter
            fun F => !F.isDeclaration && !F.loops.isEmpty).flatMap
              (funcRecords 3) ∧
      funcRecords 3 declFunc = []) :=
  ⟨Or.inl rfl, C9_unit_skips sampleModule 3 declFunc (Or.inl rfl)⟩

/-- C10: in every emitted record, `ends_with_branch` is 1 iff
`nums_branchs` is at least 1, and `ends_with_cond_branch = 1` implies
`ends_with_branch = 1`. -/
theorem C10_branch_consistency (o : Loop → Option Nat) (fn : String)
    (cid : Nat) (L : Loop) :
    ((mkLoopRecord o fn cid L).ends_with_branch = true ↔
      1 ≤ (mkLoopRecord o fn cid L).nums_branchs) ∧
    ((mkLoopRecord o fn cid L).ends_with_cond_branch = true →
      (mkLoopRecord o fn cid L).ends_with_branch = true) := by
  constructor
  · rw [mkLoopRecord_branch, mkLoopRecord_branch_count, List.any_eq_true]
    constructor
    · rintro ⟨b, hb, hany⟩
      rw [List.any_eq_true] at hany
      obtain ⟨i, hi, hbr⟩ := hany
      exact List.countP_pos_iff.mpr ⟨i, List.mem_flatMap.mpr ⟨b, hb, hi⟩, hbr⟩
    · intro h1
      obtain ⟨i, hmem, hbr⟩ := List.countP_pos_iff.mp h1
      obtain ⟨b, hb, hi⟩ := List.mem_flatMap.mp hmem
      exact ⟨b, hb, List.any_eq_true.mpr ⟨i, hi, hbr⟩⟩
  · rw [mkLoopRecord_cond_branch, mkLoopRecord_branch]
    intro h
    rw [List.any_eq_true] at h ⊢
    obtain ⟨b, hb, hany⟩ := h
    rw [List.any_eq_true] at hany
    obtain ⟨i, hi, hc⟩ := hany
    exact ⟨b, hb, List.any_eq_true.mpr ⟨i, hi, isCondBranch_isBranch hc⟩⟩

/-- Witness for C10 at the sample loop: its conditional-branch terminator
makes both flags 1 and the branch count positive. -/
theorem C10_branch_consistency_witness :
    ((mkLoopRecord nineOracle "f" 1 sampleLoop).ends_with_branch = true ↔
      1 ≤ (mkLoopRecord nineOracle "f" 1 sampleLoop).nums_branchs) ∧
    (mkLoopRecord nineOracle "f" 1 sampleLoop).ends_with_cond_branch = true ∧
    (mkLoopRecord nineOracle "f" 1 sampleLoop).ends_with_branch = true :=
  ⟨(C10_branch_consistency nineOracle "f" 1 sampleLoop).1, by decide,
    (C10_branch_consistency nineOracle "f" 1 sampleLoop).2 (by decide)⟩
